import Mathlib

/-
Verification development for the qeg-nmr-qua command-sequence builder and
program-generation layer (src/qeg_nmr_qua/experiment).

The Python code is shallowly embedded as follows: numeric scalars (Python
ints and floats, the latter idealized as exact arithmetic) become `ℚ` or
`ℤ`; Python `//` becomes floor division (`Int.fdiv`, or `⌊x / n⌋` on `ℚ`);
numpy 1-D arrays become `List ℚ`; values that may be either a scalar or an
array become `PyNum`; a Python method that can raise becomes a function
returning the possibly-mutated object together with an optional exception
(`Experiment × Option PyErr`), so that mutations performed before a raise
are visible; a dict-shaped command with possibly-missing keys becomes a
structure with `Option` fields (a `none` in a field position marks an
absent key).
-/

deriving instance DecidableEq for Except

namespace QegNmr

/-- Python-level exceptions that the embedded code can raise. -/
inductive PyErr where
  | valueError (msg : String)
  | typeError (msg : String)
  | indexError
  | keyError (key : String)
  | zeroDivisionError
deriving DecidableEq, Repr

/-- A Python value that is either a numeric scalar or a numpy 1-D array
(an `Iterable` in the sense of the `isinstance(x, Iterable)` tests of
`add_pulse` and `add_delay`). -/
inductive PyNum where
  | scalar (x : ℚ)
  | vec (xs : List ℚ)
deriving DecidableEq, Repr

/-- Elementwise Python floor division by 4 (`x // 4`), as applied by
`add_pulse` and `add_delay` to lengths and durations; numpy broadcasts it
over arrays. -/
def PyNum.fdiv4 : PyNum → PyNum
  | .scalar x => .scalar ((⌊x / 4⌋ : ℤ) : ℚ)
  | .vec xs => .vec (xs.map fun x => ((⌊x / 4⌋ : ℤ) : ℚ))

/-- Python `x % 1` on a scalar: the fractional part in `[0, 1)`. -/
def pmod1 (x : ℚ) : ℚ := x - ((⌊x⌋ : ℤ) : ℚ)

/-- `np.dot` on two 1-D arrays of equal length (callers check lengths). -/
def dot (a b : List ℚ) : ℚ := (List.zipWith (fun x y => x * y) a b).sum

/-- One operation table of a configured element
(`Element.operations.keys()` in `config/element.py`). -/
structure Element where
  operations : List String
deriving DecidableEq, Repr

/-- Container for the configured elements (`config/element.py`,
`ElementConfig`): a dataclass holding a dict from element names to
elements.  The dataclass defines no `__contains__`, `__iter__` or
`__getitem__`. -/
structure ElementConfig where
  elements : List (String × Element)
deriving DecidableEq, Repr

/-- Dict lookup `ec.elements[name]` / `name in ec.elements.keys()`. -/
def ElementConfig.findEl (ec : ElementConfig) (name : String) : Option Element :=
  (ec.elements.find? (fun p => p.1 == name)).map (fun p => p.2)

/-- The Python membership test `x in ec` applied to an `ElementConfig`
value itself (not to its `.elements` dict), as written in
`Experiment.add_align`.  Because the `ElementConfig` dataclass implements
none of the container protocols (`__contains__`, `__iter__`,
`__getitem__`), the `in` operator raises `TypeError` for every argument. -/
def ElementConfig.pyContains (_ : ElementConfig) (_ : String) : Except PyErr Bool :=
  .error (.typeError "argument of type ElementConfig is not iterable")

/-- The portions of `OPXConfig` (`config/config.py`) that the experiment
layer reads. -/
structure OPXConfig where
  elements : ElementConfig
deriving DecidableEq, Repr

/-- A stored pulse command dict (`add_pulse`).  A `none` in `phase`,
`amplitude` or the outer layer of `length` means the corresponding dict
key is absent (that field was the swept one); `length = some none` means
the key is present and holds Python `None`. -/
structure PulseCmd where
  name : String
  element : String
  phase : Option ℚ
  amplitude : Option PyNum
  length : Option (Option PyNum)
deriving DecidableEq, Repr

/-- One stored command dict, tagged by its `"type"` field. -/
inductive Command where
  | pulse (p : PulseCmd)
  | delay (duration : Option ℚ)
  | align (elements : Option (List String))
deriving DecidableEq, Repr

/-- The fields of `ExperimentSettings` (`config/settings.py`) that
`Experiment.__init__` reads.  All durations are integers in nanoseconds. -/
structure ExperimentSettings where
  n_avg : ℤ
  readout_delay : ℤ
  dwell_time : ℤ
  readout_start : ℤ
  readout_end : ℤ
  thermal_reset : ℤ
  res_key : String
  helper_key : String
  amp_key : String
  sw_key : String
  pi_half_key : String
deriving DecidableEq, Repr

/-- `RX_SWITCH_DELAY` from `experiment/macros.py`, in clock cycles. -/
def RX_SWITCH_DELAY : ℤ := 230

/-- `AMPLIFIER_UNBLANKING_TIME` from `experiment/macros.py`. -/
def AMPLIFIER_UNBLANKING_TIME : ℤ := 500

/-- `AMPLIFIER_BLANKING_TIME` from `experiment/macros.py`. -/
def AMPLIFIER_BLANKING_TIME : ℤ := 500

/-- The mutable state of an `Experiment` instance
(`experiment/experiment.py`): the attributes set by `__init__` that the
command builder and the 2-D lowering read or write. -/
structure Experiment where
  config : OPXConfig
  n_avg : ℤ
  pi_half_pulse : String
  probe_key : String
  helper_key : String
  amplifier_key : String
  rx_switch_key : String
  pre_scan_delay : ℤ
  readout_len : ℤ
  tau_min : ℤ
  tau_max : ℤ
  measure_sequence_len : ℤ
  loop_wait_cycles : ℤ
  wait_between_scans : ℤ
  commands : List Command
  use_fixed : Bool
  var_vec : Option (List ℚ)
  start_with_wait : Bool
deriving DecidableEq, Repr

/-- `Experiment.__init__` (`experiment/experiment.py`, lines 29 to 92),
given an explicit config (when `config=None` the Python builds one from
the settings; the external `QuantumMachinesManager` connection is treated
as always succeeding).  The readout-delay interlock check runs first; the
later derived quantity `measure_sequence_len` floor-divides by
`dwell_time`, which in Python raises `ZeroDivisionError` when
`dwell_time == 0`. -/
def Experiment.init (settings : ExperimentSettings) (config : OPXConfig) :
    Except PyErr Experiment :=
  let pre_scan_delay :=
    Int.fdiv settings.readout_delay 4 - 2 * AMPLIFIER_BLANKING_TIME - RX_SWITCH_DELAY
  if pre_scan_delay < 16 then
    .error (.valueError "Readout delay too short to accommodate switching times.")
  else if settings.dwell_time = 0 then
    .error .zeroDivisionError
  else
    .ok
      { config := config
        n_avg := settings.n_avg
        pi_half_pulse := settings.pi_half_key
        probe_key := settings.res_key
        helper_key := settings.helper_key
        amplifier_key := settings.amp_key
        rx_switch_key := settings.sw_key
        pre_scan_delay := pre_scan_delay
        readout_len := settings.dwell_time
        tau_min := settings.readout_start
        tau_max := settings.readout_end
        measure_sequence_len :=
          Int.fdiv (settings.readout_end - settings.readout_start) settings.dwell_time
        loop_wait_cycles := Int.fdiv settings.dwell_time 4
        wait_between_scans := Int.fdiv settings.thermal_reset 4
        commands := []
        use_fixed := false
        var_vec := none
        start_with_wait := true }

/-- The scale-recovery scan of `Experiment.update_loop` (lines 222 to
226): walk `idx` upward while `div < 0`, where `div` is
`two[idx] / var_vec[idx]` when `var_vec[idx] != 0` and the sentinel `-1`
otherwise; running past the end of the arrays is an `IndexError`.  First
argument: the stored vector `two`; second: the candidate `var_vec`. -/
def scanDiv : List ℚ → List ℚ → Except PyErr ℚ
  | t :: ts, c :: cs =>
    let d : ℚ := if c ≠ 0 then t / c else -1
    if d < 0 then scanDiv ts cs else .ok d
  | _, _ => .error .indexError

/-- `Experiment.update_loop` (lines 193 to 230).  Returns the possibly
mutated experiment together with the returned scale (`.ok`) or the raised
exception (`.error`).  `np.dot` on 1-D arrays of different lengths raises
`ValueError`, checked up front. -/
def update_loop (s : Experiment) (var_vec : List ℚ) :
    Experiment × Except PyErr ℚ :=
  if ∀ x ∈ var_vec, x = 0 then
    (s, .error (.valueError "Variable vector cannot be all zeros."))
  else
    match s.var_vec with
    | none => ({ s with var_vec := some var_vec }, .ok 1)
    | some two =>
      if var_vec.length ≠ two.length then
        (s, .error (.valueError "shapes not aligned"))
      else if dot var_vec two * dot two var_vec = dot var_vec var_vec * dot two two then
        match scanDiv two var_vec with
        | .ok div =>
          if 0 < div then (s, .ok div)
          else (s, .error (.valueError "Inconsistent loop variables."))
        | .error e => (s, .error e)
      else (s, .error (.valueError "Inconsistent loop variables."))

/-- `Experiment.add_pulse` (lines 94 to 143).  `phase` and `amplitude`
may each be a scalar or an array; `length` may additionally be `None`.
The branches mirror the `if isinstance(...)` / `elif` chain of the source:
the first array-valued field among phase, amplitude, length selects the
branch, the swept field is left out of the stored dict, and `update_loop`
registers the (normalized) vector before the command is appended. -/
def add_pulse (s : Experiment) (name element : String)
    (phase amplitude : PyNum) (length : Option PyNum) :
    Experiment × Option PyErr :=
  match (s.config.elements.findEl element) with
  | none => (s, some (.valueError ("Element " ++ element ++ " not defined in config.")))
  | some elObj =>
    if name ∉ elObj.operations then
      (s, some (.valueError ("Operation " ++ name ++ " not defined for element " ++ element ++ ".")))
    else
      match phase, amplitude, length with
      | .vec ps, ampl, len =>
        let cmd : Command := .pulse
          { name := name, element := element, phase := none,
            amplitude := some ampl, length := some (len.map PyNum.fdiv4) }
        match update_loop s (ps.map fun p => pmod1 (p / 360)) with
        | (s1, .error e) => (s1, some e)
        | (s1, .ok _) =>
          ({ s1 with use_fixed := true, commands := s1.commands ++ [cmd] }, none)
      | .scalar p, .vec amps, len =>
        let cmd : Command := .pulse
          { name := name, element := element, phase := some (pmod1 (p / 360)),
            amplitude := none, length := some (len.map PyNum.fdiv4) }
        match update_loop s amps with
        | (s1, .error e) => (s1, some e)
        | (s1, .ok _) =>
          ({ s1 with use_fixed := true, commands := s1.commands ++ [cmd] }, none)
      | .scalar p, .scalar a, some (.vec ls) =>
        let cmd : Command := .pulse
          { name := name, element := element, phase := some (pmod1 (p / 360)),
            amplitude := some (.scalar a), length := none }
        match update_loop s (ls.map fun x => ((⌊x / 4⌋ : ℤ) : ℚ)) with
        | (s1, .error e) => (s1, some e)
        | (s1, .ok _) =>
          ({ s1 with use_fixed := false, commands := s1.commands ++ [cmd] }, none)
      | .scalar p, .scalar a, len =>
        let cmd : Command := .pulse
          { name := name, element := element, phase := some (pmod1 (p / 360)),
            amplitude := some (.scalar a), length := some (len.map PyNum.fdiv4) }
        ({ s with commands := s.commands ++ [cmd] }, none)

/-- `Experiment.add_delay` (lines 145 to 162).  A swept duration is
registered after floor division by 4; the stored delay dict carries no
`"duration"` key in that case (the assignment is commented out in the
source). -/
def add_delay (s : Experiment) (duration : PyNum) : Experiment × Option PyErr :=
  match duration with
  | .vec ds =>
    match update_loop s (ds.map fun x => ((⌊x / 4⌋ : ℤ) : ℚ)) with
    | (s1, .error e) => (s1, some e)
    | (s1, .ok _) =>
      ({ s1 with use_fixed := false, commands := s1.commands ++ [.delay none] }, none)
  | .scalar d =>
    ({ s with commands := s.commands ++ [.delay (some ((⌊d / 4⌋ : ℤ) : ℚ))] }, none)

/-- `Experiment.add_align` (lines 164 to 179).  The membership test
`el not in self.config.elements` is taken on the `ElementConfig` object
itself (not on its `.elements` dict), so each iteration of the validation
loop raises `TypeError`; with `elements=None` or an empty list the loop
body never runs and the align command is appended. -/
def add_align (s : Experiment) (elements : Option (List String)) :
    Experiment × Option PyErr :=
  match elements with
  | some (el :: _) =>
    match s.config.elements.pyContains el with
    | .error e => (s, some e)
    | .ok _ => (s, some (.typeError "unreachable"))
  | some [] => ({ s with commands := s.commands ++ [.align (some [])] }, none)
  | none => ({ s with commands := s.commands ++ [.align none] }, none)

/-- One emitted QUA operation.  `play` carries the optional `amp(...)`
scale attached to the operation name; `wait` carries the optional target
element. -/
inductive QuaOp where
  | frameRotation2pi (angle : ℚ) (element : String)
  | play (name : String) (ampFactor : Option PyNum) (element : String)
  | wait (cycles : ℤ) (element : Option String)
  | alignAll
  | alignEls (els : List String)
deriving DecidableEq, Repr

/-- `drive_mode` from `experiment/macros.py`: open the receive switch,
wait out the switching time, turn the amplifier on, wait out the
unblanking time. -/
def drive_mode (switch amplifier : String) : List QuaOp :=
  [ .alignAll,
    .play "voltage_off" none switch,
    .alignAll,
    .wait RX_SWITCH_DELAY none,
    .play "voltage_on" none amplifier,
    .alignAll,
    .wait AMPLIFIER_UNBLANKING_TIME none,
    .alignAll ]

/-- `readout_mode` from `experiment/macros.py`: amplifier off first,
settle, then close the switch, then wait out the blanking time. -/
def readout_mode (switch amplifier : String) : List QuaOp :=
  [ .alignAll,
    .play "voltage_off" none amplifier,
    .alignAll,
    .wait RX_SWITCH_DELAY none,
    .play "voltage_on" none switch,
    .alignAll,
    .wait AMPLIFIER_BLANKING_TIME none,
    .alignAll ]

/-- `safe_mode` from `experiment/macros.py`: switch open and amplifier
off together, then settle. -/
def safe_mode (switch amplifier : String) : List QuaOp :=
  [ .alignAll,
    .play "voltage_off" none switch,
    .play "voltage_off" none amplifier,
    .alignAll,
    .wait RX_SWITCH_DELAY none,
    .alignAll ]

/-- `Experiment.translate_command` (lines 232 to 254): one command dict
into QUA operations.  Reading an absent dict key raises `KeyError`, so a
command whose swept field was left out of the dict cannot be translated. -/
def translate_command : Command → Except PyErr (List QuaOp)
  | .pulse p =>
    match p.phase with
    | none => .error (.keyError "phase")
    | some ph =>
      match p.amplitude with
      | none => .error (.keyError "amplitude")
      | some a =>
        .ok [ .frameRotation2pi (ph / 360) p.element,
              .play p.name (some a) p.element,
              .frameRotation2pi (-(ph / 360)) p.element ]
  | .delay d =>
    match d with
    | none => .error (.keyError "duration")
    | some dur => .ok [ .wait ⌊dur⌋ none ]
  | .align els =>
    match els with
    | none => .ok [ .alignAll ]
    | some l => .ok [ .alignEls l ]

/-- The number of positional arguments, besides `self`, accepted by
`Experiment.translate_command` in `experiment/experiment.py` (its
signature is `translate_command(self, command)`; there is no override in
`Experiment2D` and no `*args`). -/
def translate_command_arity : ℕ := 1

/-- A Python dynamic call `self.translate_command(...)` with the given
number of positional arguments beyond `self`: Python raises `TypeError`
unless the count matches the signature. -/
def call_translate_command (command : Command) (argCount : ℕ) :
    Except PyErr (List QuaOp) :=
  if argCount = translate_command_arity then translate_command command
  else
    .error (.typeError
      "Experiment.translate_command() takes 2 positional arguments but 4 were given")

/-- The per-command replay loop of `Experiment2D.create_experiment`
(lines 121 to 122): each stored command is passed to
`self.translate_command(command, var, m)` with three positional
arguments. -/
def replay_commands : List Command → Except PyErr (List QuaOp)
  | [] => .ok []
  | c :: cs => do
    let ops ← call_translate_command c 3
    let rest ← replay_commands cs
    .ok (ops ++ rest)

/-- One stream-processing operator of the epilogue
(`.buffer(n)` or `.average()`). -/
inductive StreamOp where
  | buffer (n : ℤ)
  | average
deriving DecidableEq, Repr

/-- One `<stream>.<ops>.save(tag)` statement of the stream-processing
epilogue. -/
structure SaveStmt where
  stream : String
  ops : List StreamOp
  tag : String
deriving DecidableEq, Repr

/-- The stream-processing epilogue emitted by
`Experiment2D.create_experiment` (lines 160 to 167): the iteration stream
saved raw, and each of the I and Q streams buffered by
`measure_sequence_len`, buffered by `len(self.var_vec)`, averaged, and
saved. -/
def streamEpilogue (measure_sequence_len : ℤ) (sweepLen : ℕ) : List SaveStmt :=
  [ { stream := "n_st", ops := [], tag := "iteration" },
    { stream := "I_st",
      ops := [.buffer measure_sequence_len, .buffer (sweepLen : ℤ), .average],
      tag := "I" },
    { stream := "Q_st",
      ops := [.buffer measure_sequence_len, .buffer (sweepLen : ℤ), .average],
      tag := "Q" } ]

/-- The lowered 2-D program.  The averaging loop and the sweep loop are
kept as structure fields (the QUA `for_` constructs build the loop nest
once, with the loop body emitted a single time); `cmdOps` is the body
section produced by replaying the stored commands. -/
structure Program2D where
  startWait : Option (ℤ × String)
  n_avg : ℤ
  sweep : List ℚ
  driveOps : List QuaOp
  cmdOps : List QuaOp
  postOps : List QuaOp
  measure_sequence_len : ℤ
  loop_wait_cycles : ℤ
  endOps : List QuaOp
  epilogue : List SaveStmt
deriving DecidableEq, Repr

/-- `Experiment2D.create_experiment` (`experiment/experiment_2d.py`,
lines 84 to 169).  `validate_experiment` requires a sweep vector; the
per-iteration body is the drive macro, the replayed commands, the
safe-mode macro with the pre-scan wait and the readout macro, the two
interleaved measurement loops (kept abstract behind their parameters),
the closing safe-mode macro and thermal wait; the epilogue is
`streamEpilogue`.  Any exception raised while the body is being built
aborts the whole construction. -/
def create_experiment (s : Experiment) : Except PyErr Program2D :=
  match s.var_vec with
  | none =>
    .error (.valueError
      "Experiment2D requires variable vectors. Use Experiment1D, or similar, instead.")
  | some vv => do
    let cmdOps ← replay_commands s.commands
    .ok
      { startWait :=
          if s.start_with_wait then some (s.wait_between_scans, s.probe_key) else none
        n_avg := s.n_avg
        sweep := vv
        driveOps := drive_mode s.rx_switch_key s.amplifier_key
        cmdOps := cmdOps
        postOps :=
          safe_mode s.rx_switch_key s.amplifier_key
            ++ [ .wait s.pre_scan_delay none ]
            ++ readout_mode s.rx_switch_key s.amplifier_key
        measure_sequence_len := s.measure_sequence_len
        loop_wait_cycles := s.loop_wait_cycles
        endOps :=
          safe_mode s.rx_switch_key s.amplifier_key
            ++ [ .wait s.wait_between_scans (some s.probe_key) ]
        epilogue := streamEpilogue s.measure_sequence_len vv.length }

/-- A stream value during stream processing, in flattened row-major form:
`flat t` is the t-th scalar fed to the stream, `shape` is the per-item
shape (outermost dimension first), `itemSize` its total scalar count, and
`count` the number of items. -/
structure SStream where
  flat : ℕ → ℚ
  itemSize : ℕ
  shape : List ℕ
  count : ℕ

/-- The raw stream produced by the program: `total` scalars, one item
each. -/
def SStream.source (data : ℕ → ℚ) (total : ℕ) : SStream :=
  { flat := data, itemSize := 1, shape := [], count := total }

/-- Modelled from the spec: the vendor stream-processing semantics of
`buffer` and `average` (the `qm` stream-processing library is an external
collaborator; the spec states that the streams are reshaped into
`(sweep_length, measure_sequence_len)` buffers and averaged over the
averaging-loop dimension).  `buffer n` groups `n` consecutive items into
one item whose outermost dimension is `n`; `average` replaces the whole
stream by the single elementwise mean of its items. -/
def applyOp (st : SStream) : StreamOp → SStream
  | .buffer n =>
    { flat := st.flat
      itemSize := st.itemSize * n.toNat
      shape := n.toNat :: st.shape
      count := st.count / n.toNat }
  | .average =>
    { flat := fun idx =>
        (∑ a ∈ Finset.range st.count, st.flat (a * st.itemSize + idx)) / (st.count : ℚ)
      itemSize := st.itemSize
      shape := st.shape
      count := 1 }

/-- Fold of `applyOp` over an operator chain. -/
def applyOps (ops : List StreamOp) (st : SStream) : SStream :=
  ops.foldl applyOp st

/-! Arithmetic facts about `dot` used to settle the sweep-consistency
claims. -/

theorem dot_nil_left (b : List ℚ) : dot [] b = 0 := rfl

theorem dot_nil_right (a : List ℚ) : dot a [] = 0 := by
  cases a <;> rfl

theorem dot_cons (x y : ℚ) (xs ys : List ℚ) :
    dot (x :: xs) (y :: ys) = x * y + dot xs ys := by
  simp [dot]

theorem dot_comm (a : List ℚ) : ∀ b : List ℚ, dot a b = dot b a := by
  induction a with
  | nil => intro b; rw [dot_nil_left, dot_nil_right]
  | cons x xs ih =>
    intro b
    cases b with
    | nil => rw [dot_nil_left, dot_nil_right]
    | cons y ys => rw [dot_cons, dot_cons, mul_comm, ih]

theorem dot_map_left (c : ℚ) (a : List ℚ) :
    ∀ b : List ℚ, dot (a.map fun x => c * x) b = c * dot a b := by
  induction a with
  | nil => intro b; simp [dot_nil_left]
  | cons x xs ih =>
    intro b
    cases b with
    | nil => simp [dot_nil_right]
    | cons y ys =>
      simp only [List.map_cons, dot_cons, ih]
      ring

theorem dot_map_right (c : ℚ) (a b : List ℚ) :
    dot a (b.map fun x => c * x) = c * dot a b := by
  rw [dot_comm, dot_map_left, dot_comm]

theorem dot_self_nonneg (a : List ℚ) : 0 ≤ dot a a := by
  induction a with
  | nil => simp [dot_nil_left]
  | cons x xs ih =>
    rw [dot_cons]
    have := mul_self_nonneg x
    linarith

theorem allzero_of_dot_self_zero (a : List ℚ) (h : dot a a = 0) :
    ∀ x ∈ a, x = 0 := by
  induction a with
  | nil => intro x hx; cases hx
  | cons y ys ih =>
    rw [dot_cons] at h
    have h1 : y * y = 0 := by
      have := dot_self_nonneg ys
      have := mul_self_nonneg y
      linarith
    have h2 : dot ys ys = 0 := by linarith [mul_self_eq_zero.mp h1]
    intro x hx
    rcases List.mem_cons.mp hx with rfl | hmem
    · exact mul_self_eq_zero.mp h1
    · exact ih h2 x hmem

theorem dot_sub_left (a : List ℚ) :
    ∀ b c : List ℚ, a.length = b.length →
      dot (List.zipWith (fun x y => x - y) a b) c = dot a c - dot b c := by
  induction a with
  | nil =>
    intro b c h
    cases b with
    | nil => simp [dot_nil_left]
    | cons y ys => simp at h
  | cons x xs ih =>
    intro b c h
    cases b with
    | nil => simp at h
    | cons y ys =>
      cases c with
      | nil => simp [dot_nil_right]
      | cons z zs =>
        simp only [List.zipWith_cons_cons, dot_cons]
        rw [ih ys zs (by simpa using h)]
        ring

theorem dot_sub_right (a b c : List ℚ) (h : b.length = c.length) :
    dot a (List.zipWith (fun x y => x - y) b c) = dot a b - dot a c := by
  rw [dot_comm, dot_sub_left b c a h, dot_comm b a, dot_comm c a]

theorem eq_of_zip_sub_allzero (a : List ℚ) :
    ∀ b : List ℚ, a.length = b.length →
      (∀ x ∈ List.zipWith (fun x y => x - y) a b, x = 0) → a = b := by
  induction a with
  | nil =>
    intro b h _
    cases b with
    | nil => rfl
    | cons y ys => simp at h
  | cons x xs ih =>
    intro b h hz
    cases b with
    | nil => simp at h
    | cons y ys =>
      simp only [List.zipWith_cons_cons] at hz
      have hx : x - y = 0 := hz _ (List.mem_cons_self _ _)
      have hrest : xs = ys :=
        ih ys (by simpa using h) (fun z hzz => hz z (List.mem_cons_of_mem _ hzz))
      rw [sub_eq_zero.mp hx, hrest]

theorem map_mul_cancel {c d : ℚ} (hc : c ≠ 0) :
    ∀ u w : List ℚ, (w.map fun x => c * x) = (u.map fun x => d * x) →
      w = u.map fun x => d / c * x := by
  intro u
  induction u with
  | nil =>
    intro w h
    cases w with
    | nil => rfl
    | cons z zs => simp at h
  | cons y ys ih =>
    intro w h
    cases w with
    | nil => simp at h
    | cons z zs =>
      simp only [List.map_cons, List.cons.injEq] at h ⊢
      refine ⟨?_, ih zs h.2⟩
      have := h.1
      field_simp
      linear_combination this

/-- The Cauchy–Schwarz equality case over `ℚ`-valued lists: when the
collinearity test of `update_loop` passes and the stored vector `u` is
not all-zero, the candidate `w` is a scalar multiple of `u`. -/
theorem collinear_of_dot_eq {u w : List ℚ} (hlen : w.length = u.length)
    (hu : ¬ ∀ x ∈ u, x = 0)
    (heq : dot w u * dot u w = dot w w * dot u u) :
    ∃ c : ℚ, w = u.map fun x => c * x := by
  have halpha : dot u u ≠ 0 := fun h0 => hu (allzero_of_dot_self_zero u h0)
  have hcomm : dot w u = dot u w := dot_comm w u
  have hlenAB :
      (w.map fun x => dot u u * x).length = (u.map fun x => dot u w * x).length := by
    simp [hlen]
  have hz :
      dot
        (List.zipWith (fun x y => x - y)
          (w.map fun x => dot u u * x) (u.map fun x => dot u w * x))
        (List.zipWith (fun x y => x - y)
          (w.map fun x => dot u u * x) (u.map fun x => dot u w * x)) = 0 := by
    rw [dot_sub_left _ _ _ hlenAB, dot_sub_right _ _ _ hlenAB,
      dot_sub_right _ _ _ hlenAB]
    rw [dot_map_left, dot_map_left, dot_map_right, dot_map_right,
      dot_map_right, dot_map_right, dot_map_left, dot_map_left]
    rw [hcomm] at heq ⊢
    linear_combination (-(dot u u)) * heq
  have hAB := eq_of_zip_sub_allzero _ _ hlenAB
    (allzero_of_dot_self_zero _ hz)
  exact ⟨dot u w / dot u u, map_mul_cancel halpha u w hAB⟩

/-! Behaviour of the scale-recovery scan on exact positive and negative
multiples. -/

theorem scanDiv_map_mul_pos :
    ∀ (v : List ℚ) (k : ℚ), 0 < k → (∃ x ∈ v, x ≠ 0) →
      scanDiv v (v.map fun x => k * x) = .ok (1 / k) := by
  intro v
  induction v with
  | nil =>
    rintro k hk ⟨x, hx, _⟩
    simp at hx
  | cons a as ih =>
    rintro k hk hex
    by_cases ha : a = 0
    · subst ha
      have hex2 : ∃ x ∈ as, x ≠ 0 := by
        rcases hex with ⟨x, hx, hne⟩
        rcases List.mem_cons.mp hx with rfl | hmem
        · exact absurd rfl hne
        · exact ⟨x, hmem, hne⟩
      simp only [List.map_cons, mul_zero, scanDiv]
      norm_num
      simpa using ih k hk hex2
    · have hka : ¬ (k * a = 0) := mul_ne_zero (ne_of_gt hk) ha
      have hd : a / (k * a) = 1 / k := by
        rw [mul_comm, div_mul_eq_div_div, div_self ha]
      simp only [List.map_cons, scanDiv]
      rw [if_pos hka, hd, if_neg (not_lt.mpr (le_of_lt (div_pos one_pos hk)))]

theorem scanDiv_map_mul_neg :
    ∀ (v : List ℚ) (k : ℚ), 0 < k →
      scanDiv v (v.map fun x => -k * x) = .error .indexError := by
  intro v
  induction v with
  | nil => intro k _; rfl
  | cons a as ih =>
    intro k hk
    by_cases ha : a = 0
    · subst ha
      simp only [List.map_cons, mul_zero, scanDiv]
      norm_num
      simpa using ih k hk
    · have hka : ¬ (-k * a = 0) :=
        mul_ne_zero (neg_ne_zero.mpr (ne_of_gt hk)) ha
      have hd : a / (-k * a) = -(1 / k) := by
        rw [show -k * a = -(k * a) from by ring, div_neg, mul_comm,
          div_mul_eq_div_div, div_self ha]
      simp only [List.map_cons, scanDiv]
      rw [if_pos hka, hd, if_pos (neg_lt_zero.mpr (div_pos one_pos hk))]
      exact ih k hk

/-! Concrete fixtures used by the witnesses, mirroring the configuration
and settings of `tests/test_2d_experiment.py`. -/

/-- A resonator element with one configured operation. -/
def testElement : Element := { operations := ["pi_half"] }

/-- A hardware configuration with a single element. -/
def testConfig : OPXConfig :=
  { elements := { elements := [("resonator", testElement)] } }

/-- Concrete settings (durations in nanoseconds). -/
def testSettings : ExperimentSettings :=
  { n_avg := 4
    readout_delay := 20000
    dwell_time := 4000
    readout_start := 0
    readout_end := 256000
    thermal_reset := 4000000000
    res_key := "resonator"
    helper_key := "helper"
    amp_key := "amplifier"
    sw_key := "switch"
    pi_half_key := "pi_half" }

/-- The experiment state that `Experiment.init testSettings testConfig`
produces. -/
def testExperiment : Experiment :=
  { config := testConfig
    n_avg := 4
    pi_half_pulse := "pi_half"
    probe_key := "resonator"
    helper_key := "helper"
    amplifier_key := "amplifier"
    rx_switch_key := "switch"
    pre_scan_delay := 3770
    readout_len := 4000
    tau_min := 0
    tau_max := 256000
    measure_sequence_len := 64
    loop_wait_cycles := 1000
    wait_between_scans := 1000000000
    commands := []
    use_fixed := false
    var_vec := none
    start_with_wait := true }

theorem testExperiment_from_init :
    Experiment.init testSettings testConfig = .ok testExperiment := by
  rfl

/-- C5, amended part: the error raised when the interlock check fails,
characterized exactly, and success (with an empty command list) whenever
the check passes and the later floor divisions are well defined. -/
theorem c5_interlock_check (st : ExperimentSettings) (cfg : OPXConfig) :
    (Experiment.init st cfg =
        .error (.valueError "Readout delay too short to accommodate switching times.")
      ↔ Int.fdiv st.readout_delay 4 - 2 * AMPLIFIER_BLANKING_TIME - RX_SWITCH_DELAY < 16)
    ∧ (16 ≤ Int.fdiv st.readout_delay 4 - 2 * AMPLIFIER_BLANKING_TIME - RX_SWITCH_DELAY →
        st.dwell_time ≠ 0 →
        ∃ e, Experiment.init st cfg = .ok e ∧ e.commands = []) := by
  simp only [Experiment.init]
  split_ifs with h1 h2
  · exact ⟨iff_of_true rfl h1, fun hge _ => absurd h1 (not_lt.mpr hge)⟩
  · refine ⟨⟨fun h => absurd h (by simp), fun h => absurd h h1⟩, ?_⟩
    intro _ hdw
    exact absurd h2 hdw
  · refine ⟨⟨fun h => by simp at h, fun h => absurd h h1⟩, ?_⟩
    intro _ _
    exact ⟨_, rfl, rfl⟩

theorem c5_interlock_witness :
    ((Experiment.init { testSettings with readout_delay := 4984 } testConfig =
        .error (.valueError "Readout delay too short to accommodate switching times.")
      ↔ Int.fdiv (4984 : ℤ) 4 - 2 * AMPLIFIER_BLANKING_TIME - RX_SWITCH_DELAY < 16)
    ∧ (16 ≤ Int.fdiv (4984 : ℤ) 4 - 2 * AMPLIFIER_BLANKING_TIME - RX_SWITCH_DELAY →
        (4000 : ℤ) ≠ 0 →
        ∃ e, Experiment.init { testSettings with readout_delay := 4984 } testConfig =
          .ok e ∧ e.commands = []))
    ∧ (Experiment.init { testSettings with readout_delay := 4983 } testConfig =
        .error (.valueError "Readout delay too short to accommodate switching times.")
      ↔ Int.fdiv (4983 : ℤ) 4 - 2 * AMPLIFIER_BLANKING_TIME - RX_SWITCH_DELAY < 16) :=
  ⟨c5_interlock_check { testSettings with readout_delay := 4984 } testConfig,
   (c5_interlock_check { testSettings with readout_delay := 4983 } testConfig).1⟩

/-- C5, counterexample to the claim as stated: with the boundary value
`readout_delay = 4984` (so the interlock quantity is exactly 16) but
`dwell_time = 0`, construction does not succeed: the later floor division
`(readout_end - readout_start) // dwell_time` raises
`ZeroDivisionError`. -/
theorem c5_counterexample :
    16 ≤ Int.fdiv (4984 : ℤ) 4 - 2 * AMPLIFIER_BLANKING_TIME - RX_SWITCH_DELAY
    ∧ Experiment.init { testSettings with readout_delay := 4984, dwell_time := 0 }
        testConfig = .error .zeroDivisionError := by
  exact ⟨by decide, rfl⟩

/-- C7: `add_align` with any non-empty channel list raises `TypeError`
(the membership test is taken on the `ElementConfig` object, which
supports no `in` operator), whether or not the named channels exist in
the configuration; with `channels=None` it succeeds and appends the align
command. -/
theorem c7_add_align_typeError (s : Experiment) (el : String) (rest : List String) :
    add_align s (some (el :: rest)) =
      (s, some (.typeError "argument of type ElementConfig is not iterable"))
    ∧ add_align s none = ({ s with commands := s.commands ++ [.align none] }, none) :=
  ⟨rfl, rfl⟩

/-! Helper characterizations of `update_loop`. -/

theorem update_loop_first (s : Experiment) (v : List ℚ)
    (h0 : s.var_vec = none) (hv : ¬ ∀ x ∈ v, x = 0) :
    update_loop s v = ({ s with var_vec := some v }, .ok 1) := by
  simp [update_loop, h0, hv]

theorem not_allzero_map_mul {v : List ℚ} {k : ℚ} (hk : k ≠ 0)
    (hv : ∃ x ∈ v, x ≠ 0) : ¬ ∀ x ∈ v.map (fun x => k * x), x = 0 := by
  rcases hv with ⟨x, hx, hne⟩
  intro hall
  exact hne (by
    have := hall (k * x) (List.mem_map_of_mem _ hx)
    rcases mul_eq_zero.mp this with h | h
    · exact absurd h hk
    · exact h)

theorem update_loop_pos_multiple (s : Experiment) (v : List ℚ) (k : ℚ)
    (hvv : s.var_vec = some v) (hv : ∃ x ∈ v, x ≠ 0) (hk : 0 < k) :
    update_loop s (v.map fun x => k * x) = (s, .ok (1 / k)) := by
  have hcand := not_allzero_map_mul (ne_of_gt hk) hv
  have heq :
      dot (v.map fun x => k * x) v * dot v (v.map fun x => k * x) =
        dot (v.map fun x => k * x) (v.map fun x => k * x) * dot v v := by
    rw [dot_map_left, dot_map_right, dot_map_left, dot_map_right]
    ring
  have hscan := scanDiv_map_mul_pos v k hk hv
  have hpos : 0 < 1 / k := div_pos one_pos hk
  unfold update_loop
  rw [if_neg hcand]
  simp only [hvv]
  rw [if_neg (not_not_intro (by simp)), if_pos heq]
  simp only [hscan]
  rw [if_pos hpos]

theorem update_loop_neg_multiple (s : Experiment) (v : List ℚ) (k : ℚ)
    (hvv : s.var_vec = some v) (hv : ∃ x ∈ v, x ≠ 0) (hk : 0 < k) :
    update_loop s (v.map fun x => -k * x) = (s, .error .indexError) := by
  have hcand := not_allzero_map_mul (neg_ne_zero.mpr (ne_of_gt hk)) hv
  have heq :
      dot (v.map fun x => -k * x) v * dot v (v.map fun x => -k * x) =
        dot (v.map fun x => -k * x) (v.map fun x => -k * x) * dot v v := by
    rw [dot_map_left, dot_map_right, dot_map_left, dot_map_right]
    ring
  have hscan := scanDiv_map_mul_neg v k hk
  unfold update_loop
  rw [if_neg hcand]
  simp only [hvv]
  rw [if_neg (not_not_intro (by simp)), if_pos heq]
  simp only [hscan]

theorem allzero_eq_zero_map (u : List ℚ) :
    ∀ w : List ℚ, w.length = u.length → (∀ x ∈ w, x = 0) →
      w = u.map fun x => (0 : ℚ) * x := by
  induction u with
  | nil =>
    intro w h _
    cases w with
    | nil => rfl
    | cons z zs => simp at h
  | cons y ys ih =>
    intro w h hz
    cases w with
    | nil => simp at h
    | cons z zs =>
      simp only [List.map_cons, List.cons.injEq]
      refine ⟨?_, ih zs (by simpa using h) (fun x hx => hz x (List.mem_cons_of_mem _ hx))⟩
      rw [hz z (List.mem_cons_self _ _), zero_mul]

theorem update_loop_noncollinear (s : Experiment) (u w : List ℚ)
    (hvv : s.var_vec = some u) (hlen : w.length = u.length)
    (hu : ∃ x ∈ u, x ≠ 0)
    (hnc : ¬ ∃ c : ℚ, w = u.map fun x => c * x) :
    update_loop s w = (s, .error (.valueError "Inconsistent loop variables.")) := by
  have hu' : ¬ ∀ x ∈ u, x = 0 := by
    rcases hu with ⟨x, hx, hne⟩
    intro hall
    exact hne (hall x hx)
  have hw0 : ¬ ∀ x ∈ w, x = 0 := fun hall =>
    hnc ⟨0, allzero_eq_zero_map u w hlen hall⟩
  have hnq : ¬ (dot w u * dot u w = dot w w * dot u u) := fun heq =>
    hnc (collinear_of_dot_eq hlen hu' heq)
  simp [update_loop, hvv, hw0, hlen, hnq]

/-- C2, amended: after a first registration of a nonzero vector `v`
(which stores `v` and returns scale 1), registering the candidate `k * v`
for `k > 0` succeeds without touching the stored vector, but the returned
scale is `1 / k` (the ratio stored over candidate), not `k`. -/
theorem c2_scale_is_reciprocal (s : Experiment) (v : List ℚ) (k : ℚ)
    (h0 : s.var_vec = none) (hv : ∃ x ∈ v, x ≠ 0) (hk : 0 < k) :
    (update_loop s v).2 = .ok 1 ∧
    (update_loop s v).1.var_vec = some v ∧
    (update_loop (update_loop s v).1 (v.map fun x => k * x)).2 = .ok (1 / k) ∧
    (update_loop (update_loop s v).1 (v.map fun x => k * x)).1 = (update_loop s v).1 := by
  have hv' : ¬ ∀ x ∈ v, x = 0 := by
    rcases hv with ⟨x, hx, hne⟩
    intro hall
    exact hne (hall x hx)
  have h1 := update_loop_first s v h0 hv'
  have h2 := update_loop_pos_multiple ({ s with var_vec := some v }) v k rfl hv hk
  rw [h1]
  exact ⟨rfl, rfl, by rw [h2], by rw [h2]⟩

theorem c2_witness :
    (update_loop testExperiment [3]).2 = .ok 1 ∧
    (update_loop testExperiment [3]).1.var_vec = some [3] ∧
    (update_loop (update_loop testExperiment [3]).1 ([3].map fun x => 2 * x)).2 =
      .ok (1 / 2) ∧
    (update_loop (update_loop testExperiment [3]).1 ([3].map fun x => 2 * x)).1 =
      (update_loop testExperiment [3]).1 :=
  c2_scale_is_reciprocal testExperiment [3] 2 rfl ⟨3, by decide, by decide⟩ (by decide)

/-- C2, counterexample to the claim as stated: with stored vector `[1]`
and candidate `[2]` (so `k = 2`), the returned scale is `1 / 2`, which is
not `k`. -/
theorem c2_counterexample :
    (update_loop { testExperiment with var_vec := some [1] } [2]).2 = .ok (1 / 2)
    ∧ (1 / 2 : ℚ) ≠ 2 := by
  constructor
  · have h := update_loop_pos_multiple { testExperiment with var_vec := some [1] }
      [1] 2 rfl ⟨1, by simp, by norm_num⟩ (by norm_num)
    have hmap : ([1] : List ℚ).map (fun x => 2 * x) = [2] := by norm_num
    rw [hmap] at h
    rw [h]
  · norm_num

/-- C3: with a nonzero vector registered, registering the negated
candidate `-k * v` for `k > 0` does not raise the
`ValueError("Inconsistent loop variables.")` that the spec calls
`InvalidSweepError`: the scale-recovery loop skips every negative ratio,
runs past the end of the arrays, and raises `IndexError` instead (the
experiment state is left unchanged). -/
theorem c3_negative_multiple_indexError (s : Experiment) (v : List ℚ) (k : ℚ)
    (hvv : s.var_vec = some v) (hv : ∃ x ∈ v, x ≠ 0) (hk : 0 < k) :
    update_loop s (v.map fun x => -k * x) = (s, .error .indexError) :=
  update_loop_neg_multiple s v k hvv hv hk

theorem c3_witness :
    update_loop { testExperiment with var_vec := some [1, 2] }
        ([1, 2].map fun x => -1 * x) =
      ({ testExperiment with var_vec := some [1, 2] }, .error .indexError) :=
  c3_negative_multiple_indexError { testExperiment with var_vec := some [1, 2] }
    [1, 2] 1 rfl ⟨1, by decide, by decide⟩ (by decide)

/-- C4: adding a pulse whose vector-valued amplitude is nonzero, of the
same length as the stored sweep vector, but not a scalar multiple of it,
fails with `ValueError("Inconsistent loop variables.")` (the error the
spec calls `InvalidSweepError`), and the experiment state, hence the
stored sweep vector and the command list, is returned unchanged. -/
theorem c4_noncollinear_rejected (s : Experiment) (u w : List ℚ) (p : ℚ)
    (name element : String) (elObj : Element) (len : Option PyNum)
    (hel : s.config.elements.findEl element = some elObj)
    (hop : name ∈ elObj.operations)
    (hvv : s.var_vec = some u)
    (hlen : w.length = u.length)
    (hu : ∃ x ∈ u, x ≠ 0)
    (hnc : ¬ ∃ c : ℚ, w = u.map fun x => c * x) :
    add_pulse s name element (.scalar p) (.vec w) len =
      (s, some (.valueError "Inconsistent loop variables.")) := by
  have hupd := update_loop_noncollinear s u w hvv hlen hu hnc
  simp [add_pulse, hel, hop, hupd]

theorem c4_witness :
    add_pulse { testExperiment with var_vec := some [0, 1/360, 1/180] }
        "pi_half" "resonator" (.scalar 0) (.vec [1, 1, 2]) none =
      ({ testExperiment with var_vec := some [0, 1/360, 1/180] },
        some (.valueError "Inconsistent loop variables.")) :=
  c4_noncollinear_rejected
    { testExperiment with var_vec := some [0, 1/360, 1/180] }
    [0, 1/360, 1/180] [1, 1, 2] 0 "pi_half" "resonator" testElement none
    rfl (by decide) rfl (by decide) ⟨1/360, by simp, by norm_num⟩
    (by
      rintro ⟨c, hc⟩
      simp only [List.map_cons, List.map_nil, mul_zero, List.cons.injEq] at hc
      exact one_ne_zero hc.1)

/-- C6, amended: `add_pulse` performs no multiple-vector-field check.
When `phase` is a vector it is unconditionally chosen as the sweep
source — even when `amplitude` is a vector as well — the vector amplitude
is stored in the command dict unchecked, and the call succeeds whenever
the phase registration succeeds. -/
theorem c6_first_vector_field_wins (s : Experiment) (name element : String)
    (elObj : Element) (ps as : List ℚ) (len : Option PyNum)
    (hel : s.config.elements.findEl element = some elObj)
    (hop : name ∈ elObj.operations)
    (h0 : s.var_vec = none)
    (hnz : ¬ ∀ x ∈ ps.map (fun p => pmod1 (p / 360)), x = 0) :
    add_pulse s name element (.vec ps) (.vec as) len =
      ({ s with var_vec := some (ps.map fun p => pmod1 (p / 360)),
                use_fixed := true,
                commands := s.commands ++
                  [.pulse { name := name, element := element, phase := none,
                            amplitude := some (.vec as),
                            length := some (len.map PyNum.fdiv4) }] }, none) := by
  have h1 := update_loop_first s (ps.map fun p => pmod1 (p / 360)) h0 hnz
  simp [add_pulse, hel, hop, h1]

theorem c6_witness :
    add_pulse testExperiment "pi_half" "resonator" (.vec [0, 90]) (.vec [1, 2]) none =
      ({ testExperiment with
          var_vec := some ([0, 90].map fun p => pmod1 (p / 360)),
          use_fixed := true,
          commands := testExperiment.commands ++
            [.pulse { name := "pi_half", element := "resonator", phase := none,
                      amplitude := some (.vec [1, 2]),
                      length := some none }] }, none) :=
  c6_first_vector_field_wins testExperiment "pi_half" "resonator" testElement
    [0, 90] [1, 2] none rfl (by decide) rfl
    (by
      intro hall
      have h := hall (pmod1 (90 / 360)) (by simp)
      rw [show pmod1 ((90 : ℚ) / 360) = 1 / 4 from by norm_num [pmod1]] at h
      norm_num at h)

/-- C6, counterexample to the claim as stated: a call with two
vector-valued fields (phase and amplitude) returns no error at all, in
particular no `InvalidCommandError`. -/
theorem c6_counterexample :
    (add_pulse testExperiment "pi_half" "resonator"
      (.vec [0, 90]) (.vec [1, 2]) none).2 = none := by
  have hel : testExperiment.config.elements.findEl "resonator" = some testElement := rfl
  have hop : "pi_half" ∈ testElement.operations := by decide
  have h := update_loop_first testExperiment [pmod1 0, pmod1 ((90 : ℚ) / 360)] rfl
    (by
      intro hall
      have h := hall (pmod1 ((90 : ℚ) / 360)) (by simp)
      rw [show pmod1 ((90 : ℚ) / 360) = 1 / 4 from by norm_num [pmod1]] at h
      norm_num at h)
  simp [add_pulse, hel, hop, h]

/-- C1: lowering a swept 2-D experiment with a non-empty command list
does not replay the commands at all: the replay loop calls
`self.translate_command(command, var, m)` with three positional
arguments, while `Experiment.translate_command` accepts exactly one
beyond `self` (and `Experiment2D` does not override it), so
`create_experiment` raises `TypeError` at the first command. -/
theorem c1_swept_lowering_typeError (s : Experiment) (v : List ℚ)
    (hvv : s.var_vec = some v) (hne : s.commands ≠ []) :
    create_experiment s =
      .error (.typeError
        "Experiment.translate_command() takes 2 positional arguments but 4 were given") := by
  obtain ⟨c, cs, hcs⟩ : ∃ c cs, s.commands = c :: cs := by
    cases h : s.commands with
    | nil => exact absurd h hne
    | cons c cs => exact ⟨c, cs, rfl⟩
  have hcall : call_translate_command c 3 =
      .error (.typeError
        "Experiment.translate_command() takes 2 positional arguments but 4 were given") := by
    simp [call_translate_command, translate_command_arity]
  simp [create_experiment, hvv, hcs, replay_commands, hcall, bind, Except.bind]

/-- The experiment state built by the repository test scenario in
miniature: one pulse with a swept phase vector, added through
`add_pulse`. -/
def sweptFixture : Experiment :=
  (add_pulse testExperiment "pi_half" "resonator" (.vec [0, 90]) (.scalar 1) none).1

theorem sweptFixture_eq :
    sweptFixture =
      { testExperiment with
          var_vec := some [0, 1/4],
          use_fixed := true,
          commands := [.pulse { name := "pi_half", element := "resonator",
                                phase := none, amplitude := some (.scalar 1),
                                length := some none }] } := by
  have hel : testExperiment.config.elements.findEl "resonator" = some testElement := rfl
  have hop : "pi_half" ∈ testElement.operations := by decide
  have hlist : List.map (fun p => pmod1 (p / 360)) ([0, 90] : List ℚ) = [0, 1/4] := by
    simp only [List.map_cons, List.map_nil]
    norm_num [pmod1]
  have h := update_loop_first testExperiment [0, 1/4] rfl (by norm_num)
  have hcmds : testExperiment.commands = [] := rfl
  simp only [sweptFixture, add_pulse, hel, hop, if_true, hlist, h]
  simp [hcmds]

theorem c1_witness :
    create_experiment sweptFixture =
      .error (.typeError
        "Experiment.translate_command() takes 2 positional arguments but 4 were given") :=
  c1_swept_lowering_typeError sweptFixture [0, 1/4]
    (by rw [sweptFixture_eq])
    (by rw [sweptFixture_eq]; simp)

/-- C8: in the drive macro the operations appear in strict order — open
the transmit switch (play voltage_off on the switch), wait the switch
delay, enable the amplifier (play voltage_on on the amplifier), wait the
unblanking time — and index 4 is the only place the amplifier is enabled;
in the readout macro the amplifier is disabled (index 1) strictly before
the receive switch is closed (index 4), and the amplifier is never
enabled anywhere in the readout macro. -/
theorem c8_interlock_ordering (sw ampl : String) (hne : sw ≠ ampl) :
    (drive_mode sw ampl).get? 1 = some (.play "voltage_off" none sw)
    ∧ (drive_mode sw ampl).get? 3 = some (.wait RX_SWITCH_DELAY none)
    ∧ (drive_mode sw ampl).get? 4 = some (.play "voltage_on" none ampl)
    ∧ (drive_mode sw ampl).get? 6 = some (.wait AMPLIFIER_UNBLANKING_TIME none)
    ∧ (∀ n op, (drive_mode sw ampl).get? n = some op →
        op = .play "voltage_on" none ampl → n = 4)
    ∧ (readout_mode sw ampl).get? 1 = some (.play "voltage_off" none ampl)
    ∧ (readout_mode sw ampl).get? 4 = some (.play "voltage_on" none sw)
    ∧ (∀ op ∈ readout_mode sw ampl, op ≠ .play "voltage_on" none ampl) := by
  refine ⟨rfl, rfl, rfl, rfl, ?_, rfl, rfl, ?_⟩
  · intro n op hget hop
    subst hop
    rcases n with _|_|_|_|_|_|_|_|n <;> simp_all [drive_mode]
  · intro op hop
    simp only [readout_mode, List.mem_cons, List.not_mem_nil, or_false] at hop
    rcases hop with rfl|rfl|rfl|rfl|rfl|rfl|rfl|rfl <;> simp [hne]

theorem c8_witness :
    (drive_mode "switch" "amplifier").get? 1 = some (.play "voltage_off" none "switch")
    ∧ (drive_mode "switch" "amplifier").get? 3 = some (.wait RX_SWITCH_DELAY none)
    ∧ (drive_mode "switch" "amplifier").get? 4 =
        some (.play "voltage_on" none "amplifier")
    ∧ (drive_mode "switch" "amplifier").get? 6 =
        some (.wait AMPLIFIER_UNBLANKING_TIME none)
    ∧ (∀ n op, (drive_mode "switch" "amplifier").get? n = some op →
        op = .play "voltage_on" none "amplifier" → n = 4)
    ∧ (readout_mode "switch" "amplifier").get? 1 =
        some (.play "voltage_off" none "amplifier")
    ∧ (readout_mode "switch" "amplifier").get? 4 =
        some (.play "voltage_on" none "switch")
    ∧ (∀ op ∈ readout_mode "switch" "amplifier",
        op ≠ .play "voltage_on" none "amplifier") :=
  c8_interlock_ordering "switch" "amplifier" (by decide)

/-- C9: for each of the I and Q statements of the stream-processing
epilogue, feeding the stream the `n_avg * sweep_length *
measure_sequence_len` scalars that the loop nest saves (row major:
averaging iteration outermost, then sweep point, then measurement-window
sample) yields a single buffer of shape
`(sweep_length, measure_sequence_len)` whose `(i, j)` entry is the
average over the `n_avg` averaging iterations only. -/
theorem c9_epilogue_shape_and_average (m s n : ℕ) (hm : 0 < m) (hs : 0 < s)
    (data : ℕ → ℚ) :
    ∀ stmt ∈ streamEpilogue (m : ℤ) s, stmt.tag = "I" ∨ stmt.tag = "Q" →
      (applyOps stmt.ops (SStream.source data (n * s * m))).shape = [s, m]
      ∧ (applyOps stmt.ops (SStream.source data (n * s * m))).count = 1
      ∧ ∀ i j, i < s → j < m →
          (applyOps stmt.ops (SStream.source data (n * s * m))).flat (i * m + j)
            = (∑ a ∈ Finset.range n, data (a * (m * s) + (i * m + j))) / (n : ℚ) := by
  intro stmt hstmt htag
  have hops : stmt.ops = [.buffer (m : ℤ), .buffer (s : ℤ), .average] := by
    simp only [streamEpilogue, List.mem_cons, List.not_mem_nil, or_false] at hstmt
    rcases hstmt with rfl | rfl | rfl
    · rcases htag with h | h <;> simp at h
    · rfl
    · rfl
  have htm : ((m : ℤ)).toNat = m := Int.toNat_natCast m
  have hts : ((s : ℤ)).toNat = s := Int.toNat_natCast s
  have hc1 : n * s * m / m = n * s := Nat.mul_div_cancel _ hm
  have hc2 : n * s / s = n := Nat.mul_div_cancel _ hs
  rw [hops]
  simp only [applyOps, List.foldl_cons, List.foldl_nil, applyOp, SStream.source,
    htm, hts, hc1, hc2, one_mul]
  refine ⟨by simp, by simp, ?_⟩
  intro i j _ _
  trivial

theorem c9_witness :
    (applyOps [.buffer ((2 : ℕ) : ℤ), .buffer ((2 : ℕ) : ℤ), .average]
      (SStream.source (fun t : ℕ => (t : ℚ)) (2 * 2 * 2))).shape = [2, 2]
    ∧ (applyOps [.buffer ((2 : ℕ) : ℤ), .buffer ((2 : ℕ) : ℤ), .average]
        (SStream.source (fun t : ℕ => (t : ℚ)) (2 * 2 * 2))).count = 1
    ∧ (applyOps [.buffer ((2 : ℕ) : ℤ), .buffer ((2 : ℕ) : ℤ), .average]
        (SStream.source (fun t : ℕ => (t : ℚ)) (2 * 2 * 2))).flat (1 * 2 + 0)
      = (∑ a ∈ Finset.range 2, ((fun t : ℕ => (t : ℚ)) (a * (2 * 2) + (1 * 2 + 0)))) / (2 : ℚ) :=
  have h := c9_epilogue_shape_and_average 2 2 2 (by decide) (by decide)
    (fun t : ℕ => (t : ℚ))
    { stream := "I_st", ops := [.buffer ((2 : ℕ) : ℤ), .buffer ((2 : ℕ) : ℤ), .average],
      tag := "I" }
    (by simp [streamEpilogue]) (Or.inl rfl)
  ⟨h.1, h.2.1, h.2.2 1 0 (by decide) (by decide)⟩

/-- C10: a pulse added with scalar phase `d` (degrees) stores
`(d / 360) mod 1` in the command dict, and `translate_command` then emits
a frame rotation whose argument — a fraction of a full turn — is that
stored value divided by 360 again, so the applied rotation is
`((d / 360) mod 1) / 360` of a full turn (with the matching negative
rotation after the play). -/
theorem c10_phase_double_division (s : Experiment) (name element : String)
    (elObj : Element) (d a : ℚ) (len : Option ℚ)
    (hel : s.config.elements.findEl element = some elObj)
    (hop : name ∈ elObj.operations) :
    add_pulse s name element (.scalar d) (.scalar a) (len.map PyNum.scalar) =
      ({ s with commands := s.commands ++ [.pulse
          { name := name, element := element, phase := some (pmod1 (d / 360)),
            amplitude := some (.scalar a),
            length := some ((len.map PyNum.scalar).map PyNum.fdiv4) }] }, none)
    ∧ translate_command (.pulse
        { name := name, element := element, phase := some (pmod1 (d / 360)),
          amplitude := some (.scalar a),
          length := some ((len.map PyNum.scalar).map PyNum.fdiv4) }) =
      .ok [ .frameRotation2pi (pmod1 (d / 360) / 360) element,
            .play name (some (.scalar a)) element,
            .frameRotation2pi (-(pmod1 (d / 360) / 360)) element ] := by
  constructor
  · cases len with
    | none => simp [add_pulse, hel, hop]
    | some l => simp [add_pulse, hel, hop]
  · rfl

theorem c10_witness :
    add_pulse testExperiment "pi_half" "resonator"
        (.scalar 255) (.scalar 1) ((none : Option ℚ).map PyNum.scalar) =
      ({ testExperiment with commands := testExperiment.commands ++ [.pulse
          { name := "pi_half", element := "resonator",
            phase := some (pmod1 (255 / 360)),
            amplitude := some (.scalar 1),
            length := some (((none : Option ℚ).map PyNum.scalar).map PyNum.fdiv4) }] },
        none)
    ∧ translate_command (.pulse
        { name := "pi_half", element := "resonator",
          phase := some (pmod1 (255 / 360)),
          amplitude := some (.scalar 1),
          length := some (((none : Option ℚ).map PyNum.scalar).map PyNum.fdiv4) }) =
      .ok [ .frameRotation2pi (pmod1 (255 / 360) / 360) "resonator",
            .play "pi_half" (some (.scalar 1)) "resonator",
            .frameRotation2pi (-(pmod1 (255 / 360) / 360)) "resonator" ] :=
  c10_phase_double_division testExperiment "pi_half" "resonator" testElement
    255 1 none rfl (by decide)

end QegNmr
